import Mathlib

/-!
Verification of the admission-control and persistence core of the
interactive counter service (`rate_limiter.py`, `data_manager.py`).

The Python code is shallowly embedded: every stateful method becomes a
pure Lean function from the relevant state (per-client request log,
active connection set, on-disk file state) to the updated state together
with the returned value.  Admission timestamps are integers (seconds), JSON values are an
inductive type, Python dictionaries are association lists with
first-match lookup and in-place update.
-/

/-! ## JSON values and documents (Python dicts) -/

/-- A JSON value, as produced by `json.load`.  Numbers are modelled as
rationals (covering both Python ints and the floats of `time.time()`). -/
inductive JVal where
  | jnull : JVal
  | jbool (b : Bool) : JVal
  | jnum (q : ℚ) : JVal
  | jstr (s : String) : JVal
  | jarr (xs : List JVal) : JVal
  | jobj (xs : List (String × JVal)) : JVal

open JVal

/-- A top-level JSON document: a Python dict, modelled as an association
list in insertion order. -/
abbrev Doc : Type := List (String × JVal)

/-- Python `d[k] = v`: replace the first binding of `k` in place, or
append a new binding at the end. -/
def setK (k : String) (v : JVal) : Doc → Doc
  | [] => [(k, v)]
  | (k2, v2) :: rest => if k = k2 then (k, v) :: rest else (k2, v2) :: setK k v rest

/-- Python `d.get(k)`: first binding of `k`, if any. -/
def getK (k : String) : Doc → Option JVal
  | [] => none
  | (k2, v2) :: rest => if k = k2 then some v2 else getK k rest

/-- Python `k in d`. -/
def hasK (k : String) : Doc → Bool
  | [] => false
  | (k2, _) :: rest => if k = k2 then true else hasK k rest

/-- Remove every binding of key `k`. -/
def eraseK (k : String) : Doc → Doc
  | [] => []
  | (k2, v2) :: rest => if k2 = k then eraseK k rest else (k2, v2) :: eraseK k rest

/-- Strip the fields stamped by every save (`version`, `last_updated`),
the equality modulus used by the round-trip property. -/
def stripMeta (d : Doc) : Doc :=
  eraseK "last_updated" (eraseK "version" d)

/-! ## RateLimiter (`rate_limiter.py`) -/

/-- The purge loop of `is_allowed` / `get_remaining_requests` /
`cleanup_old_entries`: pop entries from the front of the per-client
deque while the front entry is strictly older than 60 seconds. -/
def purgeOld (now : ℤ) : List ℤ → List ℤ
  | [] => []
  | t :: ts => if now - t > 60 then purgeOld now ts else t :: ts

/-- `RateLimiter.is_allowed` restricted to one client: purge the log,
then admit (appending `now`) exactly when the purged log is shorter than
`maxRequests`.  Returns the decision and the updated log. -/
def isAllowed (maxRequests : ℕ) (now : ℤ) (log : List ℤ) : Bool × List ℤ :=
  let purged := purgeOld now log
  if purged.length < maxRequests then (true, purged ++ [now]) else (false, purged)

/-- `RateLimiter.get_remaining_requests`: purge, then return
`max(0, maxRequests - len(log))` together with the updated log. -/
def getRemainingRequests (maxRequests : ℕ) (now : ℤ) (log : List ℤ) : ℤ × List ℤ :=
  let purged := purgeOld now log
  (max 0 ((maxRequests : ℤ) - purged.length), purged)

/-- Run a sequence of `is_allowed` calls for one client at the given
times, starting from an empty log, collecting the returned booleans. -/
def runAllows (maxRequests : ℕ) (times : List ℤ) : List Bool :=
  (times.foldl
    (fun acc t =>
      let r := isAllowed maxRequests t acc.2
      (acc.1 ++ [r.1], r.2))
    (([] : List Bool), ([] : List ℤ))).1

/-! ## ConnectionLimiter (`rate_limiter.py`) -/

/-- State of `ConnectionLimiter`: the configured cap and the set of
active client ids. -/
structure ConnectionLimiter where
  maxConnections : ℕ
  active : Finset String

/-- `ConnectionLimiter.can_connect`: pure capacity query. -/
def canConnect (cl : ConnectionLimiter) : Bool :=
  decide (cl.active.card < cl.maxConnections)

/-- `ConnectionLimiter.add_connection`: unconditionally insert the
client id (Python `set.add`, idempotent, no capacity check). -/
def addConnection (cl : ConnectionLimiter) (cid : String) : ConnectionLimiter :=
  { cl with active := insert cid cl.active }

/-- `ConnectionLimiter.remove_connection`: remove if present. -/
def removeConnection (cl : ConnectionLimiter) (cid : String) : ConnectionLimiter :=
  { cl with active := cl.active.erase cid }

/-- `ConnectionLimiter.get_connection_count`. -/
def getConnectionCount (cl : ConnectionLimiter) : ℕ :=
  cl.active.card

/-- Modelled from the spec: the atomic `try_admit(identity) -> bool`
required by §4.2 and §9 but absent from the source, which only offers
the separate `can_connect` / `add_connection` pair.  Under one lock it
checks capacity and inserts only when strictly below the maximum. -/
def tryAdmit (cl : ConnectionLimiter) (cid : String) : Bool × ConnectionLimiter :=
  if cl.active.card < cl.maxConnections then (true, addConnection cl cid) else (false, cl)

/-- One operation of the connection-limiter interface. -/
inductive ConnOp where
  | canC : ConnOp
  | add (cid : String) : ConnOp
  | remove (cid : String) : ConnOp
  | tryA (cid : String) : ConnOp

/-- Apply one operation to the limiter state (queries leave it
unchanged). -/
def applyOp (cl : ConnectionLimiter) : ConnOp → ConnectionLimiter
  | ConnOp.canC => cl
  | ConnOp.add cid => addConnection cl cid
  | ConnOp.remove cid => removeConnection cl cid
  | ConnOp.tryA cid => (tryAdmit cl cid).2

/-- Whether an operation is the raw, unguarded `add_connection`. -/
def isRawAdd : ConnOp → Bool
  | ConnOp.add _ => true
  | _ => false

/-! ## DataManager (`data_manager.py`): file model -/

/-- The bytes stored at one path: either an incomplete / structurally
broken byte string that `json.load` rejects, or bytes that parse to the
given JSON value. -/
inductive FileData where
  | malformedData : FileData
  | jsonData (v : JVal) : FileData

/-- The slice of the filesystem owned by one named document: the target
path and its sibling `.tmp` path (`none` = the path does not exist). -/
structure FsState where
  target : Option FileData
  tmp : Option FileData

/-- Which fallible steps of a save raise an exception in this run, plus
the platform switch `os.name` being `nt` that selects delete-then-rename
instead of the atomic overwriting rename. -/
structure SaveScenario where
  writeTmpFails : Bool
  removeTargetFails : Bool
  renameFails : Bool
  cleanupRemoveFails : Bool
  isWindows : Bool

/-- A run of a save scenario in which nothing fails. -/
def allOk : SaveScenario :=
  ⟨false, false, false, false, false⟩

/-- The `except` handler of every save method: remove the `.tmp` file if
it exists, swallowing a failure of the removal itself. -/
def cleanupTmp (sc : SaveScenario) (fs : FsState) : FsState :=
  match fs.tmp with
  | none => fs
  | some _ => if sc.cleanupRemoveFails then fs else { fs with tmp := none }

/-- The shared body of `save_button_state` / `save_achievements` /
`save_stats` after the document has been stamped: write the serialized
document to the `.tmp` path, then rename it over the target
(delete-then-rename on Windows).  On any raised step, run the handler
and report `false`. -/
def saveDocCore (sc : SaveScenario) (d : Doc) (fs : FsState) : Bool × FsState :=
  if sc.writeTmpFails then
    (false, cleanupTmp sc { fs with tmp := some FileData.malformedData })
  else
    let fs1 : FsState := { fs with tmp := some (FileData.jsonData (jobj d)) }
    if sc.isWindows then
      match fs1.target with
      | some _ =>
        if sc.removeTargetFails then (false, cleanupTmp sc fs1)
        else
          let fs2 : FsState := { fs1 with target := none }
          if sc.renameFails then (false, cleanupTmp sc fs2)
          else (true, { target := some (FileData.jsonData (jobj d)), tmp := none })
      | none =>
        if sc.renameFails then (false, cleanupTmp sc fs1)
        else (true, { target := some (FileData.jsonData (jobj d)), tmp := none })
    else
      if sc.renameFails then (false, cleanupTmp sc fs1)
      else (true, { target := some (FileData.jsonData (jobj d)), tmp := none })

/-- Outcome of a save: the returned boolean, the caller-visible document
after the in-place mutations performed by the method, and the file
state. -/
structure SaveResult where
  ok : Bool
  doc : Doc
  fs : FsState

/-- The stamping lines of `save_button_state`:
`state["last_updated"] = time.time()` then `state["version"] = "2.0"`. -/
def stampButton (now : ℚ) (d : Doc) : Doc :=
  setK "version" (jstr "2.0") (setK "last_updated" (jnum now) d)

/-- The stamping lines of `save_achievements` and `save_stats`:
`version` first, then `last_updated`. -/
def stampMeta (now : ℚ) (d : Doc) : Doc :=
  setK "last_updated" (jnum now) (setK "version" (jstr "2.0") d)

/-- Python equality `stats_data.get("date") == today` against the
string `today`: true exactly when the stored value is that string. -/
def dateMatches (today : String) : Option JVal → Bool
  | some (jstr s) => s = today
  | _ => false

/-- The daily-rollover branch of `save_stats`: when the stored `date`
differs from today (by Python equality, so also when it is absent or not
a string), reset `clicks_today`, overwrite `date`, and zero the 24
hourly buckets, in that order. -/
def rolloverStats (today : String) (d : Doc) : Doc :=
  if dateMatches today (getK "date" d) then d
  else
    setK "clicks_per_hour" (jarr (List.replicate 24 (jnum 0)))
      (setK "date" (jstr today) (setK "clicks_today" (jnum 0) d))

/-- `DataManager.save_button_state`. -/
def saveButtonState (sc : SaveScenario) (now : ℚ) (d : Doc) (fs : FsState) : SaveResult :=
  let d1 := stampButton now d
  let r := saveDocCore sc d1 fs
  ⟨r.1, d1, r.2⟩

/-- `DataManager.save_achievements`. -/
def saveAchievements (sc : SaveScenario) (now : ℚ) (d : Doc) (fs : FsState) : SaveResult :=
  let d1 := stampMeta now d
  let r := saveDocCore sc d1 fs
  ⟨r.1, d1, r.2⟩

/-- `DataManager.save_stats`: daily rollover first, then stamping, then
the common write path. -/
def saveStats (sc : SaveScenario) (now : ℚ) (today : String) (d : Doc) (fs : FsState) :
    SaveResult :=
  let d1 := stampMeta now (rolloverStats today d)
  let r := saveDocCore sc d1 fs
  ⟨r.1, d1, r.2⟩

/-- Outcome of a load: the returned document, whether a timestamped
`.corrupted.<ts>` copy of the file was created (`shutil.copy2` in
`_backup_corrupted_file`), and whether the original file was moved away
from its path (the source never does this: it copies). -/
structure LoadResult where
  doc : Doc
  quarantineCopied : Bool
  originalMoved : Bool

/-- Default counter document of `load_button_state`. -/
def defaultButtonState (now : ℚ) : Doc :=
  [("count", jnum 0), ("last_updated", jnum now), ("version", jstr "2.0")]

/-- Default achievements document of `load_achievements` (note: no
`last_updated` field in the source default). -/
def defaultAchievements : Doc :=
  [("global_unlocked", jarr []), ("player_achievements", jobj []), ("version", jstr "2.0")]

/-- Default statistics document of `load_stats`. -/
def defaultStats (today : String) : Doc :=
  [("clicks_today", jnum 0), ("date", jstr today),
   ("clicks_per_hour", jarr (List.replicate 24 (jnum 0))),
   ("unique_users", jnum 0), ("user_sessions", jobj []), ("version", jstr "2.0")]

/-- `DataManager.load_button_state` through `_safe_file_operation`:
absent file -> default; unparseable file -> `JSONDecodeError`, which
quarantines a copy and returns the default; a parsed non-dict or a dict
without `"count"` raises `ValueError`, caught by the generic handler,
which returns the default without quarantining. -/
def loadButtonState (now : ℚ) (fs : FsState) : LoadResult :=
  match fs.target with
  | none => ⟨defaultButtonState now, false, false⟩
  | some FileData.malformedData => ⟨defaultButtonState now, true, false⟩
  | some (FileData.jsonData v) =>
    match v with
    | jobj o => if hasK "count" o then ⟨o, false, false⟩ else ⟨defaultButtonState now, false, false⟩
    | _ => ⟨defaultButtonState now, false, false⟩

/-- `DataManager.load_achievements`: the structural check is only
`isinstance(data, dict)`; any parsed dict is returned as-is. -/
def loadAchievements (fs : FsState) : LoadResult :=
  match fs.target with
  | none => ⟨defaultAchievements, false, false⟩
  | some FileData.malformedData => ⟨defaultAchievements, true, false⟩
  | some (FileData.jsonData v) =>
    match v with
    | jobj o => ⟨o, false, false⟩
    | _ => ⟨defaultAchievements, false, false⟩

/-- `DataManager.load_stats`: the structural check is only
`isinstance(data, dict)`; any parsed dict is returned as-is. -/
def loadStats (today : String) (fs : FsState) : LoadResult :=
  match fs.target with
  | none => ⟨defaultStats today, false, false⟩
  | some FileData.malformedData => ⟨defaultStats today, true, false⟩
  | some (FileData.jsonData v) =>
    match v with
    | jobj o => ⟨o, false, false⟩
    | _ => ⟨defaultStats today, false, false⟩

/-! ## Backup rotation (`create_backup` / `_cleanup_old_backups`) -/

/-- Insertion step of a descending sort by modification time. -/
def insertDesc (t : ℤ) : List ℤ → List ℤ
  | [] => [t]
  | x :: xs => if x ≤ t then t :: x :: xs else x :: insertDesc t xs

/-- `backup_files.sort(key=mtime, reverse=True)`: sort modification
times in descending order. -/
def sortDesc (l : List ℤ) : List ℤ :=
  l.foldr insertDesc []

/-- `DataManager._cleanup_old_backups` on the multiset of snapshot
modification times: sort newest-first and keep the first `maxBackups`
entries (the source deletes everything after that index). -/
def cleanupOldBackups (maxBackups : ℕ) (st : List ℤ) : List ℤ :=
  (sortDesc st).take maxBackups

/-- A successful `DataManager.create_backup` at time `t`: a new snapshot
file with modification time `t` appears, then rotation runs. -/
def createBackup (maxBackups : ℕ) (st : List ℤ) (t : ℤ) : List ℤ :=
  cleanupOldBackups maxBackups (t :: st)

/-- The snapshots that survive when only the `n` newest of a
chronologically ordered (oldest-first) list are retained. -/
def keepNewest (n : ℕ) (l : List ℤ) : List ℤ :=
  l.drop (l.length - n)

/-! ## Helper lemmas -/

theorem purgeOld_length_le (now : ℤ) (l : List ℤ) :
    (purgeOld now l).length ≤ l.length := by
  induction l with
  | nil => simp [purgeOld]
  | cons t ts ih =>
    by_cases h : now - t > 60
    · simp only [purgeOld, if_pos h]
      exact ih.trans (Nat.le_succ _)
    · simp [purgeOld, if_neg h]

theorem purgeOld_fresh_head (now t : ℤ) (ts : List ℤ) (h : now - t ≤ 60) :
    purgeOld now (t :: ts) = t :: ts := by
  simp [purgeOld, not_lt.2 h]

theorem purgeOld_stale_head (now t : ℤ) (ts : List ℤ) (h : now - t > 60) :
    purgeOld now (t :: ts) = purgeOld now ts := by
  simp [purgeOld, h]

theorem purgeOld_idem (now : ℤ) (l : List ℤ) :
    purgeOld now (purgeOld now l) = purgeOld now l := by
  induction l with
  | nil => rfl
  | cons t ts ih =>
    by_cases h : now - t > 60
    · rw [purgeOld_stale_head now t ts h, ih]
    · rw [purgeOld_fresh_head now t ts (not_lt.1 h),
        purgeOld_fresh_head now t ts (not_lt.1 h)]

theorem purgeOld_eq_filter (now : ℤ) (l : List ℤ) (hs : l.Pairwise (· ≤ ·)) :
    purgeOld now l = l.filter (fun t => decide (now - t ≤ 60)) := by
  induction l with
  | nil => rfl
  | cons t ts ih =>
    rcases List.pairwise_cons.1 hs with ⟨hhead, htail⟩
    by_cases h : now - t > 60
    · rw [purgeOld_stale_head now t ts h, ih htail, List.filter_cons,
        decide_eq_false (not_le.2 h)]
      simp
    · have hfresh : now - t ≤ 60 := not_lt.1 h
      have hall : ∀ x ∈ ts, decide (now - x ≤ 60) = true := by
        intro x hx
        have hx2 : t ≤ x := hhead x hx
        exact decide_eq_true (by omega)
      rw [purgeOld_fresh_head now t ts hfresh, List.filter_cons,
        decide_eq_true hfresh, List.filter_eq_self.2 hall]
      simp

theorem getK_setK_self (k : String) (v : JVal) (d : Doc) :
    getK k (setK k v d) = some v := by
  induction d with
  | nil => simp [setK, getK]
  | cons p rest ih =>
    obtain ⟨k2, v2⟩ := p
    by_cases h : k = k2
    · simp [setK, getK, h]
    · simp [setK, getK, h, ih]

theorem getK_setK_ne (k k2 : String) (v : JVal) (d : Doc) (h : k ≠ k2) :
    getK k (setK k2 v d) = getK k d := by
  induction d with
  | nil => simp [setK, getK, h]
  | cons p rest ih =>
    obtain ⟨k3, v3⟩ := p
    by_cases h2 : k2 = k3
    · subst h2
      simp [setK, getK, h]
    · by_cases h3 : k = k3
      · simp [setK, getK, h2, h3]
      · simp [setK, getK, h2, h3, ih]

theorem hasK_setK_ne (k k2 : String) (v : JVal) (d : Doc) (h : k ≠ k2) :
    hasK k (setK k2 v d) = hasK k d := by
  induction d with
  | nil => simp [setK, hasK, h]
  | cons p rest ih =>
    obtain ⟨k3, v3⟩ := p
    by_cases h2 : k2 = k3
    · subst h2
      simp [setK, hasK, h]
    · by_cases h3 : k = k3
      · simp [setK, hasK, h2, h3]
      · simp [setK, hasK, h2, h3, ih]

theorem eraseK_setK_self (k : String) (v : JVal) (d : Doc) :
    eraseK k (setK k v d) = eraseK k d := by
  induction d with
  | nil => simp [setK, eraseK]
  | cons p rest ih =>
    obtain ⟨k2, v2⟩ := p
    by_cases h : k = k2
    · subst h
      simp [setK, eraseK]
    · simp [setK, eraseK, h, Ne.symm h, ih]

theorem eraseK_setK_ne (k k2 : String) (v : JVal) (d : Doc) (h : k ≠ k2) :
    eraseK k (setK k2 v d) = setK k2 v (eraseK k d) := by
  induction d with
  | nil => simp [setK, eraseK, Ne.symm h]
  | cons p rest ih =>
    obtain ⟨k3, v3⟩ := p
    by_cases h2 : k2 = k3
    · subst h2
      simp [setK, eraseK, Ne.symm h]
    · by_cases h3 : k3 = k
      · subst h3
        simp [setK, eraseK, h2, Ne.symm h2, ih]
      · simp [setK, eraseK, h2, h3, Ne.symm h2, ih]

theorem stripMeta_stampButton (now : ℚ) (d : Doc) :
    stripMeta (stampButton now d) = stripMeta d := by
  unfold stripMeta stampButton
  rw [eraseK_setK_self, eraseK_setK_ne "version" "last_updated" _ _ (by decide),
    eraseK_setK_self]

theorem stripMeta_stampMeta (now : ℚ) (d : Doc) :
    stripMeta (stampMeta now d) = stripMeta d := by
  unfold stripMeta stampMeta
  rw [eraseK_setK_ne "version" "last_updated" _ _ (by decide), eraseK_setK_self,
    eraseK_setK_self]

theorem cleanupTmp_target (sc : SaveScenario) (fs : FsState) :
    (cleanupTmp sc fs).target = fs.target := by
  cases htmp : fs.tmp with
  | none => simp [cleanupTmp, htmp]
  | some fd =>
    simp only [cleanupTmp, htmp]
    split <;> rfl

theorem cleanupTmp_tmp (sc : SaveScenario) (fs : FsState)
    (h : sc.cleanupRemoveFails = false) : (cleanupTmp sc fs).tmp = none := by
  cases htmp : fs.tmp with
  | none => simp [cleanupTmp, htmp]
  | some fd => simp [cleanupTmp, htmp, h]

theorem saveDocCore_ok (sc : SaveScenario) (d : Doc) (fs : FsState)
    (h : (saveDocCore sc d fs).1 = true) :
    (saveDocCore sc d fs).2 = ⟨some (FileData.jsonData (jobj d)), none⟩ := by
  obtain ⟨w, rT, rn, cf, win⟩ := sc
  obtain ⟨tg, tm⟩ := fs
  cases w <;> cases win <;> cases rn <;> cases rT <;> cases tg <;>
    simp_all [saveDocCore, cleanupTmp]

theorem saveDocCore_fail_target (sc : SaveScenario) (d : Doc) (fs : FsState)
    (hwin : sc.isWindows = false) (h : (saveDocCore sc d fs).1 = false) :
    (saveDocCore sc d fs).2.target = fs.target := by
  obtain ⟨w, rT, rn, cf, win⟩ := sc
  obtain ⟨tg, tm⟩ := fs
  subst hwin
  cases w <;> cases rn <;> cases tg <;>
    simp_all [saveDocCore, cleanupTmp_target]

theorem saveDocCore_fail_tmp (sc : SaveScenario) (d : Doc) (fs : FsState)
    (hcf : sc.cleanupRemoveFails = false) (h : (saveDocCore sc d fs).1 = false) :
    (saveDocCore sc d fs).2.tmp = none := by
  obtain ⟨w, rT, rn, cf, win⟩ := sc
  obtain ⟨tg, tm⟩ := fs
  subst hcf
  cases w <;> cases win <;> cases rn <;> cases rT <;> cases tg <;>
    simp_all [saveDocCore] <;>
    exact cleanupTmp_tmp _ _ rfl

theorem applyOp_maxConnections (cl : ConnectionLimiter) (op : ConnOp) :
    (applyOp cl op).maxConnections = cl.maxConnections := by
  cases op with
  | canC => rfl
  | add cid => rfl
  | remove cid => rfl
  | tryA cid =>
    unfold applyOp tryAdmit
    by_cases hc : cl.active.card < cl.maxConnections
    · simp [hc, addConnection]
    · simp [hc]

theorem applyOp_card_le (cl : ConnectionLimiter) (op : ConnOp)
    (hop : isRawAdd op = false) (h : cl.active.card ≤ cl.maxConnections) :
    (applyOp cl op).active.card ≤ cl.maxConnections := by
  cases op with
  | canC => exact h
  | add cid => simp [isRawAdd] at hop
  | remove cid => exact le_trans (Finset.card_erase_le) h
  | tryA cid =>
    unfold applyOp tryAdmit
    by_cases hc : cl.active.card < cl.maxConnections
    · simp only [if_pos hc]
      exact le_trans (Finset.card_insert_le _ _) hc
    · simp only [if_neg hc]
      exact h

/-! ## Claims about the connection limiter -/

/-- Claim C1 (counterexample): the source `add_connection` inserts
unconditionally, so the sequence [`add_connection "a"`,
`add_connection "b"`] against a limiter configured with
`max_connections = 1` leaves 2 active connections — the active set
exceeds the configured maximum. -/
theorem claim_c1_add_exceeds_cap :
    getConnectionCount
        (List.foldl applyOp ⟨1, ∅⟩ [ConnOp.add "a", ConnOp.add "b"]) = 2 ∧
    (List.foldl applyOp ⟨1, ∅⟩ [ConnOp.add "a", ConnOp.add "b"]).maxConnections = 1 := by
  constructor <;> decide

/-- Claim C1 (corrected): the at-most-N invariant holds for every
operation sequence that performs admission only through the atomic
`try_admit` required by the spec (queries and removals are free) —
starting within capacity, the active set never exceeds
`max_connections`; the raw `add_connection` of the source, having no
capacity check, can push the set past capacity. -/
theorem claim_c1_admission_capacity (ops : List ConnOp) (cl : ConnectionLimiter)
    (hops : ∀ op ∈ ops, isRawAdd op = false)
    (hcl : cl.active.card ≤ cl.maxConnections) :
    (ops.foldl applyOp cl).active.card ≤ cl.maxConnections := by
  induction ops generalizing cl with
  | nil => simpa using hcl
  | cons op rest ih =>
    have hop : isRawAdd op = false := hops op (List.mem_cons_self _ _)
    have hrest : ∀ o ∈ rest, isRawAdd o = false :=
      fun o ho => hops o (List.mem_cons_of_mem _ ho)
    have hmax := applyOp_maxConnections cl op
    have hstep : (applyOp cl op).active.card ≤ (applyOp cl op).maxConnections := by
      rw [hmax]
      exact applyOp_card_le cl op hop hcl
    have := ih (applyOp cl op) hrest hstep
    rw [hmax] at this
    simpa using this

/-- Witness for C1: two `try_admit` calls and a removal against capacity
1 keep the active set within the cap. -/
theorem claim_c1_admission_capacity_witness :
    (List.foldl applyOp ⟨1, ∅⟩
        [ConnOp.tryA "a", ConnOp.tryA "b", ConnOp.remove "a"]).active.card ≤ 1 :=
  claim_c1_admission_capacity [ConnOp.tryA "a", ConnOp.tryA "b", ConnOp.remove "a"]
    ⟨1, ∅⟩ (by decide) (by decide)

/-! ## Claims about the rate limiter -/

/-- Claim C2 (confirmed): with a log of exactly `maxRequests` admitted
timestamps whose oldest entry `t1` is still within the 60-second span of
`now`, the next `is_allowed` call returns false and leaves the log
unchanged (no append); once `now` is strictly more than 60 seconds past
`t1`, the call succeeds again.  Concretely, with
`max_requests_per_minute = 5`, six calls within one second yield
`[true, true, true, true, true, false]`. -/
theorem claim_c2_sliding_window (maxRequests : ℕ) (t1 now : ℤ) (rest : List ℤ)
    (hlen : (t1 :: rest).length = maxRequests) :
    (now - t1 ≤ 60 → isAllowed maxRequests now (t1 :: rest) = (false, t1 :: rest)) ∧
    (now - t1 > 60 → (isAllowed maxRequests now (t1 :: rest)).1 = true) ∧
    runAllows 5 [0, 0, 0, 0, 0, 0] = [true, true, true, true, true, false] := by
  refine ⟨?_, ?_, by decide⟩
  · intro h
    unfold isAllowed
    rw [purgeOld_fresh_head now t1 rest h]
    simp [hlen]
  · intro h
    unfold isAllowed
    rw [purgeOld_stale_head now t1 rest h]
    have hle := purgeOld_length_le now rest
    have hlt : (purgeOld now rest).length < maxRequests := by
      simp only [List.length_cons] at hlen
      omega
    simp [hlt]

/-- Witness for C2: a full log of one entry at time 0 rejects a call at
time 30 without appending. -/
theorem claim_c2_sliding_window_witness : isAllowed 1 30 [(0 : ℤ)] = (false, [0]) :=
  (claim_c2_sliding_window 1 0 30 [] (by decide)).1 (by decide)

/-- Claim C6 (counterexample): an entry of age exactly 60 seconds is NOT
treated as expired by the source.  With limit 1 and a lone entry at time
0, a call at time 60 (age exactly 60) is rejected and the entry is left
in the log, so the entry did count against the limit, contradicting the
claim that it is purged and never counts. -/
theorem claim_c6_boundary_counterexample :
    isAllowed 1 60 [(0 : ℤ)] = (false, [0]) ∧ (60 : ℤ) - 0 = 60 :=
  ⟨by decide, by decide⟩

/-- Claim C6 (corrected): the purge comparison is strictly-greater-than
on age, so an entry is purged exactly when its age strictly exceeds 60
seconds; an entry aged exactly 60 seconds (or less) is retained and
still counts against the limit. -/
theorem claim_c6_boundary (now t : ℤ) (rest : List ℤ) :
    (now - t ≤ 60 → purgeOld now (t :: rest) = t :: rest) ∧
    (now - t > 60 → purgeOld now (t :: rest) = purgeOld now rest) :=
  ⟨purgeOld_fresh_head now t rest, purgeOld_stale_head now t rest⟩

/-- Witness for C6: an entry of age exactly 60 survives the purge, one
of age 100 is dropped. -/
theorem claim_c6_boundary_witness :
    purgeOld 100 [(40 : ℤ)] = [40] ∧ purgeOld 100 [(0 : ℤ), 40] = purgeOld 100 [40] :=
  ⟨(claim_c6_boundary 100 40 []).1 (by decide),
   (claim_c6_boundary 100 0 [40]).2 (by decide)⟩

/-- Claim C7 (confirmed): on a chronologically ordered log,
`get_remaining_requests` returns `max(0, R - n)` where `n` is the number
of non-expired entries, and it is a pure query in the sense that an
immediately repeated call (same time, no intervening `allow`) returns
the same value and leaves the stored log unchanged. -/
theorem claim_c7_remaining (maxRequests : ℕ) (now : ℤ) (log : List ℤ)
    (hs : log.Pairwise (· ≤ ·)) :
    (getRemainingRequests maxRequests now log).1 =
      max 0 ((maxRequests : ℤ) - (log.filter (fun t => decide (now - t ≤ 60))).length) ∧
    getRemainingRequests maxRequests now (getRemainingRequests maxRequests now log).2 =
      getRemainingRequests maxRequests now log := by
  constructor
  · unfold getRemainingRequests
    rw [purgeOld_eq_filter now log hs]
  · simp [getRemainingRequests, purgeOld_idem]

/-- Witness for C7: limit 3, entries at times 30 (expired at 100) and 90
(fresh): remaining is 2, and a repeated call is stable. -/
theorem claim_c7_remaining_witness :
    (getRemainingRequests 3 100 [30, 90]).1 =
      max 0 ((3 : ℤ) - (([30, 90] : List ℤ).filter (fun t => decide (100 - t ≤ 60))).length) ∧
    getRemainingRequests 3 100 (getRemainingRequests 3 100 [30, 90]).2 =
      getRemainingRequests 3 100 [30, 90] :=
  claim_c7_remaining 3 100 [30, 90] (by decide)

/-! ## Claims about the document store -/

/-- Claim C3 (counterexample): a counter file that exists and parses but
is missing the required `count` field is handled by the generic
exception branch of `_safe_file_operation`: the default is returned but
no quarantine copy is made, and the original file is not moved aside
(the source never renames; even for parse errors it only copies). -/
theorem claim_c3_corruption_counterexample :
    (loadButtonState 0 ⟨some (FileData.jsonData (jobj [])), none⟩).doc =
      defaultButtonState 0 ∧
    (loadButtonState 0 ⟨some (FileData.jsonData (jobj [])), none⟩).quarantineCopied = false ∧
    (loadButtonState 0 ⟨some (FileData.jsonData (jobj [])), none⟩).originalMoved = false ∧
    hasK "count" [] = false :=
  ⟨rfl, rfl, rfl, rfl⟩

/-- Claim C3 (corrected): only an unparseable file is quarantined, and
the quarantine is a timestamped copy beside the original, which stays in
place (it is never renamed or moved).  A parseable counter file that is
not a dict or lacks `count` yields the default with no quarantine; a
parseable achievements or statistics dict is returned as-is even when
required fields are missing. -/
theorem claim_c3_corruption_handling (now : ℚ) (today : String)
    (tmpF : Option FileData) (o : Doc) :
    (loadButtonState now ⟨some FileData.malformedData, tmpF⟩ =
      ⟨defaultButtonState now, true, false⟩) ∧
    (hasK "count" o = false →
      loadButtonState now ⟨some (FileData.jsonData (jobj o)), tmpF⟩ =
        ⟨defaultButtonState now, false, false⟩) ∧
    (loadAchievements ⟨some FileData.malformedData, tmpF⟩ =
      ⟨defaultAchievements, true, false⟩) ∧
    (loadAchievements ⟨some (FileData.jsonData (jobj o)), tmpF⟩ = ⟨o, false, false⟩) ∧
    (loadStats today ⟨some FileData.malformedData, tmpF⟩ =
      ⟨defaultStats today, true, false⟩) ∧
    (loadStats today ⟨some (FileData.jsonData (jobj o)), tmpF⟩ = ⟨o, false, false⟩) := by
  refine ⟨rfl, ?_, rfl, rfl, rfl, rfl⟩
  intro h
  simp [loadButtonState, h]

/-- Witness for C3: a parsed counter dict with only an unrelated field
is replaced by the default without quarantine. -/
theorem claim_c3_corruption_handling_witness :
    loadButtonState 0 ⟨some (FileData.jsonData (jobj [("x", jnum 1)])), none⟩ =
      ⟨defaultButtonState 0, false, false⟩ :=
  (claim_c3_corruption_handling 0 "2024-01-01" none [("x", jnum 1)]).2.1 rfl

/-- Claim C4 (counterexample): on the Windows branch the source deletes
the target before renaming; if the rename then raises, the failed save
leaves the target path absent — it neither retains its previous contents
nor holds the new contents. -/
theorem claim_c4_save_failure_counterexample :
    (saveButtonState ⟨false, false, true, false, true⟩ 0 []
        ⟨some (FileData.jsonData (jobj [("count", jnum 1)])), none⟩).ok = false ∧
    (saveButtonState ⟨false, false, true, false, true⟩ 0 []
        ⟨some (FileData.jsonData (jobj [("count", jnum 1)])), none⟩).fs.target = none :=
  ⟨rfl, rfl⟩

/-- Claim C4 (corrected): a failed save returns false and never raises;
the `.tmp` file is gone afterwards provided its removal itself does not
fail (the source swallows that error and leaves the `.tmp` behind); on
POSIX the target is exactly its previous contents after any failure, and
on any platform a successful save leaves the target holding the
complete stamped document with no `.tmp` file.  The Windows
delete-then-rename branch can lose the target, as the counterexample
shows. -/
theorem claim_c4_save_failure (sc : SaveScenario) (now : ℚ) (today : String)
    (d : Doc) (fs : FsState) :
    ((saveButtonState sc now d fs).ok = false → sc.cleanupRemoveFails = false →
      (saveButtonState sc now d fs).fs.tmp = none) ∧
    ((saveButtonState sc now d fs).ok = false → sc.isWindows = false →
      (saveButtonState sc now d fs).fs.target = fs.target) ∧
    ((saveButtonState sc now d fs).ok = true →
      (saveButtonState sc now d fs).fs =
        ⟨some (FileData.jsonData (jobj (stampButton now d))), none⟩) ∧
    ((saveAchievements sc now d fs).ok = false → sc.cleanupRemoveFails = false →
      (saveAchievements sc now d fs).fs.tmp = none) ∧
    ((saveAchievements sc now d fs).ok = false → sc.isWindows = false →
      (saveAchievements sc now d fs).fs.target = fs.target) ∧
    ((saveAchievements sc now d fs).ok = true →
      (saveAchievements sc now d fs).fs =
        ⟨some (FileData.jsonData (jobj (stampMeta now d))), none⟩) ∧
    ((saveStats sc now today d fs).ok = false → sc.cleanupRemoveFails = false →
      (saveStats sc now today d fs).fs.tmp = none) ∧
    ((saveStats sc now today d fs).ok = false → sc.isWindows = false →
      (saveStats sc now today d fs).fs.target = fs.target) ∧
    ((saveStats sc now today d fs).ok = true →
      (saveStats sc now today d fs).fs =
        ⟨some (FileData.jsonData (jobj (stampMeta now (rolloverStats today d)))), none⟩) := by
  refine ⟨?_, ?_, ?_, ?_, ?_, ?_, ?_, ?_, ?_⟩
  · intro h hcf
    exact saveDocCore_fail_tmp sc _ fs hcf h
  · intro h hwin
    exact saveDocCore_fail_target sc _ fs hwin h
  · intro h
    exact saveDocCore_ok sc _ fs h
  · intro h hcf
    exact saveDocCore_fail_tmp sc _ fs hcf h
  · intro h hwin
    exact saveDocCore_fail_target sc _ fs hwin h
  · intro h
    exact saveDocCore_ok sc _ fs h
  · intro h hcf
    exact saveDocCore_fail_tmp sc _ fs hcf h
  · intro h hwin
    exact saveDocCore_fail_target sc _ fs hwin h
  · intro h
    exact saveDocCore_ok sc _ fs h

/-- Witness for C4: a POSIX save whose rename fails reports false, keeps
the previous target contents, and removes the `.tmp` file. -/
theorem claim_c4_save_failure_witness :
    (saveButtonState ⟨false, false, true, false, false⟩ 0 []
        ⟨some (FileData.jsonData (jobj [("count", jnum 2)])), none⟩).fs.tmp = none ∧
    (saveButtonState ⟨false, false, true, false, false⟩ 0 []
        ⟨some (FileData.jsonData (jobj [("count", jnum 2)])), none⟩).fs.target =
      (⟨some (FileData.jsonData (jobj [("count", jnum 2)])), none⟩ : FsState).target :=
  ⟨(claim_c4_save_failure ⟨false, false, true, false, false⟩ 0 "t" []
      ⟨some (FileData.jsonData (jobj [("count", jnum 2)])), none⟩).1 rfl rfl,
   (claim_c4_save_failure ⟨false, false, true, false, false⟩ 0 "t" []
      ⟨some (FileData.jsonData (jobj [("count", jnum 2)])), none⟩).2.1 rfl rfl⟩

/-- Claim C5 (counterexample): the round trip fails for a counter
document without a `count` field: saving the empty document succeeds,
but the following load fails the structural check and returns the
default, which differs from the saved document even after stripping the
stamped `version` and `last_updated` fields. -/
theorem claim_c5_round_trip_counterexample :
    (saveButtonState allOk 0 [] ⟨none, none⟩).ok = true ∧
    stripMeta (loadButtonState 0 (saveButtonState allOk 0 [] ⟨none, none⟩).fs).doc ≠
      stripMeta ([] : Doc) := by
  refine ⟨rfl, ?_⟩
  have h1 : stripMeta (loadButtonState 0 (saveButtonState allOk 0 [] ⟨none, none⟩).fs).doc =
      [("count", jnum 0)] := rfl
  have h2 : stripMeta ([] : Doc) = [] := rfl
  rw [h1, h2]
  exact List.cons_ne_nil _ _

/-- Claim C5 (corrected): a successful save followed by a load returns
the saved document up to the stamped `version` and `last_updated`
fields, provided the document survives the load-time structural check:
unconditionally for achievements, for the counter when the document has
a `count` field, and for statistics when its `date` equals the current
date at save time (otherwise the rollover rewrites further fields). -/
theorem claim_c5_round_trip (sc : SaveScenario) (now now2 : ℚ) (today : String)
    (d : Doc) (fs : FsState) :
    (hasK "count" d = true → (saveButtonState sc now d fs).ok = true →
      stripMeta (loadButtonState now2 (saveButtonState sc now d fs).fs).doc = stripMeta d) ∧
    ((saveAchievements sc now d fs).ok = true →
      stripMeta (loadAchievements (saveAchievements sc now d fs).fs).doc = stripMeta d) ∧
    (dateMatches today (getK "date" d) = true → (saveStats sc now today d fs).ok = true →
      stripMeta (loadStats today (saveStats sc now today d fs).fs).doc = stripMeta d) := by
  refine ⟨?_, ?_, ?_⟩
  · intro hc hok
    have hfs := saveDocCore_ok sc (stampButton now d) fs hok
    have hfs2 : (saveButtonState sc now d fs).fs =
        ⟨some (FileData.jsonData (jobj (stampButton now d))), none⟩ := hfs
    rw [hfs2]
    have hcount : hasK "count" (stampButton now d) = true := by
      unfold stampButton
      rw [hasK_setK_ne _ _ _ _ (by decide), hasK_setK_ne _ _ _ _ (by decide)]
      exact hc
    simp only [loadButtonState, hcount, if_true]
    exact stripMeta_stampButton now d
  · intro hok
    have hfs := saveDocCore_ok sc (stampMeta now d) fs hok
    have hfs2 : (saveAchievements sc now d fs).fs =
        ⟨some (FileData.jsonData (jobj (stampMeta now d))), none⟩ := hfs
    rw [hfs2]
    simp only [loadAchievements]
    exact stripMeta_stampMeta now d
  · intro hdate hok
    have hroll : rolloverStats today d = d := by
      unfold rolloverStats
      rw [hdate]
      simp
    have hfs := saveDocCore_ok sc (stampMeta now (rolloverStats today d)) fs hok
    have hfs2 : (saveStats sc now today d fs).fs =
        ⟨some (FileData.jsonData (jobj (stampMeta now (rolloverStats today d)))), none⟩ := hfs
    rw [hfs2]
    simp only [loadStats]
    rw [hroll]
    exact stripMeta_stampMeta now d

/-- Witness for C5: a counter document carrying `count` and an extra
field round-trips modulo the stamped fields. -/
theorem claim_c5_round_trip_witness :
    stripMeta (loadButtonState 0
        (saveButtonState allOk 0 [("count", jnum 3), ("extra", jbool true)]
          ⟨none, none⟩).fs).doc =
      stripMeta [("count", jnum 3), ("extra", jbool true)] :=
  (claim_c5_round_trip allOk 0 0 "2024-01-01" [("count", jnum 3), ("extra", jbool true)]
    ⟨none, none⟩).1 rfl rfl

/-- Claim C8 (confirmed): when the stored `date` differs from the
current date at save time, `save_stats` resets `clicks_today` to 0,
zeroes the 24 hourly buckets, and sets `date` to the current date before
writing; on success the written file holds exactly this reset document. -/
theorem claim_c8_daily_rollover (sc : SaveScenario) (now : ℚ) (today : String)
    (d : Doc) (fs : FsState) (h : dateMatches today (getK "date" d) = false) :
    getK "clicks_today" (saveStats sc now today d fs).doc = some (jnum 0) ∧
    getK "date" (saveStats sc now today d fs).doc = some (jstr today) ∧
    getK "clicks_per_hour" (saveStats sc now today d fs).doc =
      some (jarr (List.replicate 24 (jnum 0))) ∧
    ((saveStats sc now today d fs).ok = true →
      (saveStats sc now today d fs).fs.target =
        some (FileData.jsonData (jobj (saveStats sc now today d fs).doc))) := by
  have hdoc : (saveStats sc now today d fs).doc =
      stampMeta now (setK "clicks_per_hour" (jarr (List.replicate 24 (jnum 0)))
        (setK "date" (jstr today) (setK "clicks_today" (jnum 0) d))) := by
    show stampMeta now (rolloverStats today d) = _
    unfold rolloverStats
    rw [h]
    simp
  refine ⟨?_, ?_, ?_, ?_⟩
  · rw [hdoc]
    unfold stampMeta
    rw [getK_setK_ne _ _ _ _ (by decide), getK_setK_ne _ _ _ _ (by decide),
      getK_setK_ne _ _ _ _ (by decide), getK_setK_ne _ _ _ _ (by decide), getK_setK_self]
  · rw [hdoc]
    unfold stampMeta
    rw [getK_setK_ne _ _ _ _ (by decide), getK_setK_ne _ _ _ _ (by decide),
      getK_setK_ne _ _ _ _ (by decide), getK_setK_self]
  · rw [hdoc]
    unfold stampMeta
    rw [getK_setK_ne _ _ _ _ (by decide), getK_setK_ne _ _ _ _ (by decide), getK_setK_self]
  · intro hok
    have hfs := saveDocCore_ok sc (stampMeta now (rolloverStats today d)) fs hok
    have hfs2 : (saveStats sc now today d fs).fs =
        ⟨some (FileData.jsonData (jobj (stampMeta now (rolloverStats today d)))), none⟩ := hfs
    rw [hfs2]
    rfl

/-- Witness for C8: the example scenario — a statistics document dated
2024-01-01 saved on 2024-01-02 ends with zero clicks, zero hourly
buckets, and the new date. -/
theorem claim_c8_daily_rollover_witness :
    getK "clicks_today"
        (saveStats allOk 0 "2024-01-02"
          [("clicks_today", jnum 7), ("date", jstr "2024-01-01"),
           ("clicks_per_hour", jarr [jnum 1])] ⟨none, none⟩).doc = some (jnum 0) ∧
    getK "date"
        (saveStats allOk 0 "2024-01-02"
          [("clicks_today", jnum 7), ("date", jstr "2024-01-01"),
           ("clicks_per_hour", jarr [jnum 1])] ⟨none, none⟩).doc =
      some (jstr "2024-01-02") ∧
    getK "clicks_per_hour"
        (saveStats allOk 0 "2024-01-02"
          [("clicks_today", jnum 7), ("date", jstr "2024-01-01"),
           ("clicks_per_hour", jarr [jnum 1])] ⟨none, none⟩).doc =
      some (jarr (List.replicate 24 (jnum 0))) :=
  ⟨(claim_c8_daily_rollover allOk 0 "2024-01-02"
      [("clicks_today", jnum 7), ("date", jstr "2024-01-01"),
       ("clicks_per_hour", jarr [jnum 1])] ⟨none, none⟩ rfl).1,
   (claim_c8_daily_rollover allOk 0 "2024-01-02"
      [("clicks_today", jnum 7), ("date", jstr "2024-01-01"),
       ("clicks_per_hour", jarr [jnum 1])] ⟨none, none⟩ rfl).2.1,
   (claim_c8_daily_rollover allOk 0 "2024-01-02"
      [("clicks_today", jnum 7), ("date", jstr "2024-01-01"),
       ("clicks_per_hour", jarr [jnum 1])] ⟨none, none⟩ rfl).2.2.1⟩

/-- Claim C10 (confirmed): every save returns the caller-held document
mutated in place — stamped with `version` and `last_updated`, and for
statistics additionally rewritten by the daily rollover — for every
scenario, including every failing one, so the in-memory document changes
even when the save fails. -/
theorem claim_c10_in_place_mutation (sc : SaveScenario) (now : ℚ) (today : String)
    (d : Doc) (fs : FsState) :
    (saveButtonState sc now d fs).doc = stampButton now d ∧
    (saveAchievements sc now d fs).doc = stampMeta now d ∧
    (saveStats sc now today d fs).doc = stampMeta now (rolloverStats today d) ∧
    getK "version" (stampButton now d) = some (jstr "2.0") ∧
    getK "last_updated" (stampButton now d) = some (jnum now) ∧
    getK "version" (stampMeta now d) = some (jstr "2.0") ∧
    getK "last_updated" (stampMeta now d) = some (jnum now) := by
  refine ⟨rfl, rfl, rfl, ?_, ?_, ?_, ?_⟩
  · unfold stampButton
    rw [getK_setK_self]
  · unfold stampButton
    rw [getK_setK_ne _ _ _ _ (by decide), getK_setK_self]
  · unfold stampMeta
    rw [getK_setK_ne _ _ _ _ (by decide), getK_setK_self]
  · unfold stampMeta
    rw [getK_setK_self]

/-! ## Claim about backup rotation -/

theorem insertDesc_top (t : ℤ) (l : List ℤ) (h : ∀ x ∈ l, x ≤ t) :
    insertDesc t l = t :: l := by
  cases l with
  | nil => rfl
  | cons x xs => simp [insertDesc, h x (List.mem_cons_self _ _)]

theorem sortDesc_of_sorted (l : List ℤ) (h : l.Pairwise (· ≥ ·)) :
    sortDesc l = l := by
  induction l with
  | nil => rfl
  | cons x xs ih =>
    rcases List.pairwise_cons.1 h with ⟨hx, hxs⟩
    show insertDesc x (sortDesc xs) = x :: xs
    rw [ih hxs, insertDesc_top x xs (fun y hy => hx y hy)]

theorem createBackup_step (maxB : ℕ) (st : List ℤ) (t : ℤ)
    (hst : st.Pairwise (· ≥ ·)) (htop : ∀ x ∈ st, x ≤ t) :
    createBackup maxB st t = (t :: st).take maxB := by
  unfold createBackup cleanupOldBackups
  rw [sortDesc_of_sorted (t :: st) (List.pairwise_cons.2 ⟨fun y hy => htop y hy, hst⟩)]

theorem foldl_createBackup_aux (maxB : ℕ) (ts : List ℤ) :
    ∀ st : List ℤ, ts.Pairwise (· < ·) → st.Pairwise (· ≥ ·) →
      (∀ x ∈ st, ∀ t ∈ ts, x < t) → st.length ≤ maxB →
      ts.foldl (createBackup maxB) st =
        ((st.reverse ++ ts).drop (st.length + ts.length - maxB)).reverse := by
  induction ts with
  | nil =>
    intro st hts hst hcross hlen
    have h0 : st.length + ([] : List ℤ).length - maxB = 0 := by
      simp only [List.length_nil]
      omega
    rw [List.foldl_nil, List.append_nil, h0, List.drop_zero, List.reverse_reverse]
  | cons t ts2 ih =>
    intro st hts hst hcross hlen
    have htop : ∀ x ∈ st, x ≤ t :=
      fun x hx => le_of_lt (hcross x hx t (List.mem_cons_self _ _))
    rw [List.foldl_cons, createBackup_step maxB st t hst htop]
    have hpair2 : ((t :: st).take maxB).Pairwise (· ≥ ·) :=
      List.Pairwise.sublist (List.take_sublist _ _)
        (List.pairwise_cons.2 ⟨fun y hy => htop y hy, hst⟩)
    have hcross2 : ∀ x ∈ (t :: st).take maxB, ∀ u ∈ ts2, x < u := by
      intro x hx u hu
      rcases List.mem_cons.1 (List.mem_of_mem_take hx) with hx3 | hx3
      · subst hx3
        exact (List.pairwise_cons.1 hts).1 u hu
      · exact hcross x hx3 u (List.mem_cons_of_mem _ hu)
    have hlen2 : ((t :: st).take maxB).length ≤ maxB := by
      rw [List.length_take]
      omega
    rw [ih _ (List.pairwise_cons.1 hts).2 hpair2 hcross2 hlen2]
    have hk : (t :: st).length - maxB ≤ ((t :: st).reverse).length := by
      rw [List.length_reverse]
      omega
    rw [List.reverse_take, List.length_take,
      ← List.drop_append_of_le_length hk, List.drop_drop]
    have hL : (t :: st).reverse ++ ts2 = st.reverse ++ t :: ts2 := by
      rw [List.reverse_cons, List.append_assoc, List.singleton_append]
    rw [hL]
    have hidx : (t :: st).length - maxB +
        (min maxB (t :: st).length + ts2.length - maxB) =
        st.length + (t :: ts2).length - maxB := by
      simp only [List.length_cons]
      omega
    rw [hidx]

/-- Claim C9 (confirmed): creating `maxBackups + k` backups (k at least
1, at strictly increasing modification times) starting from an empty
backup directory leaves exactly `maxBackups` snapshot files, namely the
`maxBackups` newest — the `k` removed ones are the `k` oldest by
modification time. -/
theorem claim_c9_backup_rotation (maxBackups k : ℕ) (ts : List ℤ)
    (hts : ts.Pairwise (· < ·)) (hlen : ts.length = maxBackups + k) (hk : 1 ≤ k) :
    (ts.foldl (createBackup maxBackups) []).length = maxBackups ∧
    ts.foldl (createBackup maxBackups) [] = (ts.drop k).reverse := by
  have h := foldl_createBackup_aux maxBackups ts [] hts (by simp) (by simp) (by simp)
  simp only [List.reverse_nil, List.nil_append, List.length_nil, Nat.zero_add] at h
  have hdrop : ts.length - maxBackups = k := by omega
  rw [hdrop] at h
  refine ⟨?_, h⟩
  rw [h, List.length_reverse, List.length_drop, hlen]
  omega

/-- Witness for C9: with retention 2 and three backups at times 0, 1, 2,
exactly the two newest snapshots remain. -/
theorem claim_c9_backup_rotation_witness :
    (([0, 1, 2] : List ℤ).foldl (createBackup 2) []).length = 2 ∧
    ([0, 1, 2] : List ℤ).foldl (createBackup 2) [] = (([0, 1, 2] : List ℤ).drop 1).reverse :=
  claim_c9_backup_rotation 2 1 [0, 1, 2] (by decide) (by decide) (by decide)
